import Mathlib

/-!
Verification development for the OmniBus message-management core.

The definitions below are a shallow embedding of the message mutation
protocol implemented by `RabbitMQService` (and, for purge, also
`AzureServiceBusService`): identifier derivation, the drain/classify/republish
loops of `deleteMessage`, `moveMessage`, the bulk operations with chunking and
retry, `importMessages`, and the two `purgeQueue` implementations.

Network effects are made explicit: a drained queue is a list of raw messages,
a publish attempt's eventual outcome (receipt confirmed or failed after the
internal retries of `publishWithReceipt`) is an oracle parameter, and a
function that throws is modelled with an explicit error constructor or an
`Option` result.  The STOMP client is modelled as connected, which is the
state guaranteed right after the `ensureConnected` call that precedes every
republish loop in the source.
-/

namespace OmniBus

/-- JavaScript `a || b` on an optional string: the empty string is falsy,
so `some ""` also falls through to the default. -/
def jsOrElse (a : Option String) (b : String) : String :=
  match a with
  | some s => if s = "" then b else s
  | none => b

/-- Raw wire-message properties, as read from the management API response
(`msg.properties`). -/
structure RawProperties where
  message_id : Option String
  content_type : Option String
  headers : List (String × String)
deriving DecidableEq, Repr

/-- Raw wire message as drained from a queue (`msg` in the source): optional
properties object and the payload string. -/
structure RawMessage where
  properties : Option RawProperties
  payload : String
deriving DecidableEq, Repr

/-- The optional chain `msg.properties?.message_id`. -/
def propMessageId (m : RawMessage) : Option String :=
  m.properties.bind fun p => p.message_id

/-- The id every classification loop computes for a drained message:
`msg.properties?.message_id || i` (string of the positional index as the
fallback). -/
def messageIdOr (m : RawMessage) (i : Nat) : String :=
  jsOrElse (propMessageId m) (toString i)

/-- The id assigned by the normalization in `getMessages`:
`msg.properties?.message_id || i`.  Note that this is the
positional index alone when the broker supplies no message id. -/
def normalizeId (m : RawMessage) (index : Nat) : String :=
  messageIdOr m index

/-- One step of the rolling hash in `generateInternalId`:
`hash = (hash * 31 + payload.charCodeAt(i)) >>> 0`.  The intermediate
product stays below 2^53, so JavaScript arithmetic is exact and `>>> 0`
is reduction modulo 2^32. -/
def jsHashStep (h c : Nat) : Nat :=
  (h * 31 + c) % 4294967296

/-- The full payload hash of `generateInternalId` (fold of `jsHashStep`
over the UTF-16 code units; the payloads we consider are ASCII, where
`Char.toNat` coincides with `charCodeAt`). -/
def jsStringHash (s : String) : Nat :=
  s.data.foldl (fun h c => jsHashStep h c.toNat) 0

/-- Lowercase base-16 rendering, as produced by `hash.toString(16)`. -/
def hexString (n : Nat) : String :=
  String.mk (Nat.toDigits 16 n)

/-- Embedding of `RabbitMQService.generateInternalId`: prefer the broker
message id (JavaScript-falsy empty base when absent), then append a content
hash and the positional index. -/
def generateInternalId (m : RawMessage) (index : Nat) : String :=
  jsOrElse (propMessageId m) "" ++ "#" ++ hexString (jsStringHash m.payload)
    ++ ":" ++ toString index

/-- Result of `deleteMessage`: the loop ends in success or in the thrown
not-found error. -/
inductive DeleteOutcome where
  | ok
  | notFound
deriving DecidableEq, Repr

/-- The republish loop of `deleteMessage` over the enumerated drained
messages: every message whose id differs from the target is published back
to the source queue (in drain order), and the `messageFound` flag records
whether any message matched. -/
def deleteScan (messageId : String) : List (Nat × RawMessage) → List RawMessage × Bool
  | [] => ([], false)
  | (i, m) :: rest =>
    let r := deleteScan messageId rest
    if messageIdOr m i = messageId then (r.1, true)
    else (m :: r.1, r.2)

/-- Embedding of `RabbitMQService.deleteMessage` after the destructive
drain: the first component lists the messages republished to the source
queue (publishes are issued inside the loop, before the not-found check),
the second is the outcome. -/
def deleteMessage (drained : List RawMessage) (messageId : String) :
    List RawMessage × DeleteOutcome :=
  let r := deleteScan messageId drained.enum
  (r.1, if r.2 then DeleteOutcome.ok else DeleteOutcome.notFound)

/-- Observable publish events of `moveMessage`: a republish of a keep
message to the source queue or the publish of the target message to the
destination queue, each tagged with the index of the message in the drain,
the message, and whether `publishWithReceipt` ultimately succeeded. -/
inductive Ev where
  | pubSource (i : Nat) (m : RawMessage) (ok : Bool)
  | pubTarget (i : Nat) (m : RawMessage) (ok : Bool)
deriving DecidableEq, Repr

/-- Result of `moveMessage`. -/
inductive MoveOutcome where
  | ok
  | noMessages
  | notFound
  | publishFailed
deriving DecidableEq, Repr

/-- The classification predicate of `moveMessage`:
`originalId === messageId` with `originalId = message_id || idx`. -/
def isTargetMsg (messageId : String) (im : Nat × RawMessage) : Bool :=
  messageIdOr im.2 im.1 = messageId

/-- The sequential keep-republish loop of `moveMessage`: each non-target
message is published to the source queue with `publishWithReceipt` (its
eventual success given by the oracle `keepOk`); the first failure throws,
so later keeps are not attempted.  Returns the emitted events and whether
the whole loop succeeded. -/
def publishKeeps (keepOk : Nat → Bool) : List (Nat × RawMessage) → List Ev × Bool
  | [] => ([], true)
  | (i, m) :: rest =>
    if keepOk i then
      (Ev.pubSource i m true :: (publishKeeps keepOk rest).1,
        (publishKeeps keepOk rest).2)
    else ([Ev.pubSource i m false], false)

/-- The `targets` list of `moveMessage`: drained messages whose derived id
equals the requested one, in drain order. -/
def moveTargets (drained : List RawMessage) (messageId : String) :
    List (Nat × RawMessage) :=
  drained.enum.filter (isTargetMsg messageId)

/-- The `nonTargets` list of `moveMessage`: drained messages whose derived
id differs from the requested one, in drain order. -/
def moveNonTargets (drained : List RawMessage) (messageId : String) :
    List (Nat × RawMessage) :=
  drained.enum.filter fun im => ! isTargetMsg messageId im

/-- The phase of `moveMessage` after classification: no target match
throws not-found (before any republish); otherwise the first match is the
target, the non-target messages are republished to the source
sequentially with confirmation, and only after that loop completes is the
target published to the destination queue (`targetOk` gives the eventual
outcome of that confirmed publish). -/
def moveRepublishPhase (targets nonTargets : List (Nat × RawMessage))
    (keepOk : Nat → Bool) (targetOk : Bool) : List Ev × MoveOutcome :=
  match targets with
  | [] => ([], MoveOutcome.notFound)
  | (ti, tm) :: _ =>
    if (publishKeeps keepOk nonTargets).2 then
      ((publishKeeps keepOk nonTargets).1 ++ [Ev.pubTarget ti tm targetOk],
        if targetOk then MoveOutcome.ok else MoveOutcome.publishFailed)
    else ((publishKeeps keepOk nonTargets).1, MoveOutcome.publishFailed)

/-- Embedding of `RabbitMQService.moveMessage` after the destructive
drain: empty drain throws; otherwise the drained messages are classified
by derived id and handed to the republish phase. -/
def moveMessage (drained : List RawMessage) (messageId : String)
    (keepOk : Nat → Bool) (targetOk : Bool) : List Ev × MoveOutcome :=
  if drained.isEmpty then ([], MoveOutcome.noMessages)
  else
    moveRepublishPhase (moveTargets drained messageId)
      (moveNonTargets drained messageId) keepOk targetOk

/-- Embedding of `RabbitMQService.chunkArray` for a positive chunk size:
the source loop pushes `array.slice(i, i + chunkSize)` for
`i = 0, chunkSize, 2*chunkSize, ...`, i.e. it repeatedly takes a
`chunkSize`-prefix and recurses on the rest.  The head element is peeled
off so that the recursion is well founded for every `chunkSize`; for
`chunkSize >= 1` (the source always passes 1000) the peeled form agrees
with `take`/`drop`. -/
def chunkArray {α : Type} : List α → Nat → List (List α)
  | [], _ => []
  | a :: as, k => (a :: as.take (k - 1)) :: chunkArray (as.drop (k - 1)) k
termination_by l _ => l.length
decreasing_by
  simp only [List.length_drop, List.length_cons]
  omega

/-- The list of chunk sizes that `chunkArray` produces on a list of a given
length. -/
def chunkLens : Nat → Nat → List Nat
  | 0, _ => []
  | n + 1, k => min (n + 1) k :: chunkLens (n - (k - 1)) k
termination_by n _ => n
decreasing_by omega

/-- Single-batch counts shared by `bulkDeleteMessages` and
`bulkMoveMessages` (<=1000 ids, one destructive drain): `successCount`
counts the drained messages whose derived id is in the requested id set,
and `failCount` is `messageIds.length - successCount` (a JavaScript
number, so an integer that may be negative when duplicate drained
messages match). -/
def bulkSingleResult (drained : List RawMessage) (ids : List String) : Int × Int :=
  let successCount : Nat :=
    (drained.enum.filter fun im => ids.contains (messageIdOr im.2 im.1)).length
  ((successCount : Int), (ids.length : Int) - (successCount : Int))

/-- The chunked aggregation loop shared by `bulkDeleteMessages` and
`bulkMoveMessages`: chunks are processed sequentially; `env i = some d`
means the (retried) recursive call for chunk `i` eventually succeeded
against drained queue contents `d`, contributing its single-batch counts,
while `env i = none` means the chunk failed all retries, contributing its
full chunk length to the fail count. -/
def runChunks (env : Nat → Option (List RawMessage)) :
    Nat → List (List String) → Int × Int
  | _, [] => (0, 0)
  | i, c :: cs =>
    let rest := runChunks env (i + 1) cs
    match env i with
    | some drained =>
      let r := bulkSingleResult drained c
      (r.1 + rest.1, r.2 + rest.2)
    | none => (rest.1, (c.length : Int) + rest.2)

/-- Embedding of `RabbitMQService.bulkDeleteMessages`: empty input returns
zero counts; more than 1000 ids takes the chunked path (which always
returns aggregated counts); otherwise one drain-and-classify batch whose
drain result is `env 0` (`none` models the thrown fetch error, in which
case no result is returned). -/
def bulkDeleteMessages (ids : List String)
    (env : Nat → Option (List RawMessage)) : Option (Int × Int) :=
  if ids.length = 0 then some (0, 0)
  else if ids.length > 1000 then some (runChunks env 0 (chunkArray ids 1000))
  else
    match env 0 with
    | some drained => some (bulkSingleResult drained ids)
    | none => none

/-- Embedding of `RabbitMQService.bulkMoveMessages`, whose returned counts
have exactly the same shape as the delete variant: matched drained messages
are published to the target queue and counted as successes, the rest are
requeued, and `failCount = messageIds.length - successCount`. -/
def bulkMoveMessages (ids : List String)
    (env : Nat → Option (List RawMessage)) : Option (Int × Int) :=
  if ids.length = 0 then some (0, 0)
  else if ids.length > 1000 then some (runChunks env 0 (chunkArray ids 1000))
  else
    match env 0 with
    | some drained => some (bulkSingleResult drained ids)
    | none => none

/-- Embedding of `RabbitMQService.retryChunkOperation` with outcome oracle
`op` (whether the attempt with the given index succeeds): attempts are
indexed from 0 to `maxRetries`; before attempt `n >= 1` the loop sleeps
`baseDelayMs * 2 ^ (n - 1)` milliseconds.  Returns the list of delays
slept, the number of attempts made, and whether the operation eventually
succeeded (`false` models the rethrow of the last error). -/
def retryLoop (op : Nat → Bool) (baseDelayMs : Nat) :
    Nat → Nat → List Nat × Nat × Bool
  | _, 0 => ([], 0, false)
  | attempt, fuel + 1 =>
    let pre : List Nat :=
      if attempt = 0 then [] else [baseDelayMs * 2 ^ (attempt - 1)]
    if op attempt then (pre, 1, true)
    else if fuel = 0 then (pre, 1, false)
    else
      let r := retryLoop op baseDelayMs (attempt + 1) fuel
      (pre ++ r.1, r.2.1 + 1, r.2.2)

/-- Specialization of `retryLoop` to the source defaults
(`maxRetries = 2`, `baseDelayMs = 1000`): the loop body runs for attempts
0, 1, 2, i.e. fuel `maxRetries + 1`. -/
def retryChunkOperation (op : Nat → Bool) : List Nat × Nat × Bool :=
  retryLoop op 1000 0 3

/-- Embedding of `RabbitMQService.importMessages`: each entry of the input
is the eventual outcome of that body's publish promise (`false` models a
rejected promise).  Every body is processed by the loop (the promise
executors run synchronously while the promises are collected), so the
first component is the number of bodies attempted; the second is the
returned count pair, or `none` when `Promise.all` rejects and the
function rethrows. -/
def importMessages (bodies : List Bool) : Nat × Option (Nat × Nat) :=
  if bodies.isEmpty then (0, some (0, 0))
  else
    let successCount := (bodies.filter fun b => b).length
    if bodies.all fun b => b then
      (bodies.length, some (successCount, bodies.length - successCount))
    else (bodies.length, none)

/-- Embedding of `RabbitMQService.purgeQueue` on a queue currently holding
`depth` messages: it first reads the queue depth over the management API
(count 0 when that read fails), then issues one purge request for the
whole queue contents, and returns the pre-read count (or throws, modelled
as `none`, when the purge request fails).  No batched draining occurs. -/
def rabbitPurgeQueue (depth : Nat) (infoOk purgeOk : Bool) : Option Nat :=
  let messageCount := if infoOk then depth else 0
  if purgeOk then some messageCount else none

/-- Embedding of the receive loop of `AzureServiceBusService.purgeQueue`:
`batches k` is the number of messages the k-th `receiveMessages` call
returns (each at most the batch size 100).  The loop adds batch sizes to
the running total and stops only when a receive comes back empty; `fuel`
bounds how many iterations we unfold, with `none` meaning the loop is
still running after that many iterations (the source has no iteration
cap). -/
def azurePurgeLoop (batches : Nat → Nat) : Nat → Nat → Nat → Option Nat
  | _, _, 0 => none
  | k, total, fuel + 1 =>
    if batches k = 0 then some total
    else azurePurgeLoop batches (k + 1) (total + batches k) fuel

/-- Concrete drained message with broker id "a". -/
def msgA : RawMessage :=
  ⟨some ⟨some "a", some "application/json", []⟩, "payload-a"⟩

/-- Concrete drained message with broker id "b". -/
def msgB : RawMessage :=
  ⟨some ⟨some "b", some "application/json", []⟩, "payload-b"⟩

/-- Concrete drained message with broker id "x" (first duplicate). -/
def msgX1 : RawMessage :=
  ⟨some ⟨some "x", none, []⟩, "payload-1"⟩

/-- Concrete drained message that shares broker id "x" (second duplicate)
but has a different payload. -/
def msgX2 : RawMessage :=
  ⟨some ⟨some "x", none, []⟩, "payload-2"⟩

/-- Concrete drained message with the same broker id and payload as
`msgX1` but different content type and headers. -/
def msgX1Header : RawMessage :=
  ⟨some ⟨some "x", some "text/plain", [("k", "v")]⟩, "payload-1"⟩

/-- Concrete drained message without a broker-assigned message id. -/
def msgNoIdA : RawMessage := ⟨none, "AAA"⟩

/-- Concrete drained message without a broker-assigned message id and a
different payload. -/
def msgNoIdB : RawMessage := ⟨none, "BBB"⟩

/-- C1: on a drain where no message matches the target id, `deleteMessage`
does republish every drained message before throwing not-found, but
`moveMessage` throws not-found without republishing a single drained
(destructively consumed) message — the entire drain is lost, contradicting
the required republish-before-NotFound cleanup. -/
theorem c1_notFound_cleanup_eval :
    deleteMessage [msgA, msgB] "z" = ([msgA, msgB], DeleteOutcome.notFound) ∧
    moveMessage [msgA, msgB] "z" (fun _ => true) true = ([], MoveOutcome.notFound) := by
  decide

/-- C3: when two drained messages share the target id, `moveMessage`
publishes only the first duplicate (to the destination) and emits no
publish at all for the second duplicate — it is dropped, not requeued —
while `deleteMessage` treats every duplicate as a target and republishes
none of them. -/
theorem c3_duplicate_id_eval :
    moveMessage [msgX1, msgX2] "x" (fun _ => true) true =
      ([Ev.pubTarget 0 msgX1 true], MoveOutcome.ok) ∧
    deleteMessage [msgX1, msgX2] "x" = ([], DeleteOutcome.ok) := by
  decide

/-- Helper: against a receiver that returns one message on every call, the
Azure purge loop never terminates, whatever iteration budget it is given —
the loop has no safety cap. -/
theorem azurePurgeLoop_const_one (fuel : Nat) :
    ∀ k total, azurePurgeLoop (fun _ => 1) k total fuel = none := by
  induction fuel with
  | zero => intro k total; rfl
  | succ n ih =>
    intro k total
    simp only [azurePurgeLoop, ih]
    norm_num

/-- C4 counterexample: the RabbitMQ purge on a queue holding 50 messages
returns a removed count of 0 when the preliminary depth read fails even
though all 50 messages are discarded, and the Azure receive loop is still
running after 2048 iterations against a receiver that keeps returning one
message per batch — there is no safety iteration cap. -/
theorem c4_purge_counterexample :
    rabbitPurgeQueue 50 false true = some 0 ∧
    azurePurgeLoop (fun _ => 1) 0 0 2048 = none := by
  exact ⟨rfl, azurePurgeLoop_const_one 2048 0 0⟩

/-- C6 counterexample: with every attempt failing, the delays slept by
`retryChunkOperation` (base delay 1000 ms) are 1000 ms and 2000 ms —
base times 2 ^ (n - 1) for retry n — not the base times 2 ^ n (2000 ms
and 4000 ms) that the claim states. -/
theorem c6_backoff_counterexample :
    (retryChunkOperation fun _ => false).1 = [1000, 2000] ∧
    [1000, 2000] ≠ [1000 * 2 ^ 1, 1000 * 2 ^ 2] := by
  decide

/-- C7 counterexample: two drained messages with different payloads and no
broker message id receive the same normalized id at the same position —
the id assigned by `getMessages` is the positional index alone, not a
content-hash combination (which `generateInternalId` would produce, and
which does distinguish the two payloads). -/
theorem c7_id_counterexample :
    normalizeId msgNoIdA 0 = normalizeId msgNoIdB 0 ∧
    msgNoIdA.payload ≠ msgNoIdB.payload ∧
    generateInternalId msgNoIdA 0 ≠ generateInternalId msgNoIdB 0 := by
  decide

/-- Helper: the keep-republish loop never emits a destination publish
event. -/
theorem publishKeeps_no_pubTarget (keepOk : Nat → Bool)
    (l : List (Nat × RawMessage)) (i : Nat) (m : RawMessage) (b : Bool) :
    Ev.pubTarget i m b ∉ (publishKeeps keepOk l).1 := by
  induction l with
  | nil => simp [publishKeeps]
  | cons hd tl ih =>
    obtain ⟨j, mm⟩ := hd
    by_cases hk : keepOk j
    · simp [publishKeeps, hk, ih]
    · simp [publishKeeps, hk]

/-- Helper: when the keep-republish loop reports overall success, its
event list is exactly one confirmed source republish per keep message, in
order. -/
theorem publishKeeps_all_ok (keepOk : Nat → Bool)
    (l : List (Nat × RawMessage))
    (h : (publishKeeps keepOk l).2 = true) :
    (publishKeeps keepOk l).1 = l.map fun im => Ev.pubSource im.1 im.2 true := by
  induction l with
  | nil => rfl
  | cons hd tl ih =>
    obtain ⟨j, mm⟩ := hd
    by_cases hk : keepOk j
    · simp only [publishKeeps, hk, if_true] at h ⊢
      simp [ih h]
    · simp [publishKeeps, hk] at h

/-- Helper: the ordering property stated over the republish phase alone -
if the target publish event occurs, the event list is exactly the
confirmed keep republishes followed by the target publish. -/
theorem moveRepublishPhase_target_last
    (targets nonTargets : List (Nat × RawMessage)) (keepOk : Nat → Bool)
    (targetOk : Bool) (i : Nat) (m : RawMessage) (b : Bool)
    (h : Ev.pubTarget i m b ∈ (moveRepublishPhase targets nonTargets keepOk targetOk).1) :
    (moveRepublishPhase targets nonTargets keepOk targetOk).1 =
      (nonTargets.map fun im => Ev.pubSource im.1 im.2 true)
        ++ [Ev.pubTarget i m b] := by
  rcases targets with _ | ⟨⟨ti, tm⟩, rest⟩
  · simp [moveRepublishPhase] at h
  · by_cases hr : (publishKeeps keepOk nonTargets).2 = true
    · simp only [moveRepublishPhase, hr, if_true] at h ⊢
      rcases List.mem_append.mp h with hin | hin
      · exact absurd hin (publishKeeps_no_pubTarget keepOk nonTargets i m b)
      · simp only [List.mem_singleton] at hin
        rw [publishKeeps_all_ok keepOk nonTargets hr, ← hin]
    · simp only [moveRepublishPhase, hr, Bool.false_eq_true, if_false] at h
      exact absurd h (publishKeeps_no_pubTarget keepOk nonTargets i m b)

/-- C2: in `moveMessage`, whenever the publish of the target message to
the destination queue is attempted (a destination publish event is in the
trace), the trace consists of one confirmed source republish for every
keep message, in drain order, followed by that single target publish —
the target publish is never attempted before every keep republish has
succeeded with broker receipt. -/
theorem c2_moveMessage_target_after_keeps
    (drained : List RawMessage) (messageId : String) (keepOk : Nat → Bool)
    (targetOk : Bool) (i : Nat) (m : RawMessage) (b : Bool)
    (h : Ev.pubTarget i m b ∈ (moveMessage drained messageId keepOk targetOk).1) :
    (moveMessage drained messageId keepOk targetOk).1 =
      ((moveNonTargets drained messageId).map
        fun im => Ev.pubSource im.1 im.2 true) ++ [Ev.pubTarget i m b] := by
  unfold moveMessage at h ⊢
  by_cases he : drained.isEmpty
  · simp [he] at h
  · simp only [he, Bool.false_eq_true, if_false] at h ⊢
    exact moveRepublishPhase_target_last _ _ keepOk targetOk i m b h

/-- C2 witness: a concrete move of message "b" out of a two-message drain
in which every publish succeeds; the trace is the confirmed requeue of
the keep message followed by the target publish. -/
theorem c2_moveMessage_target_after_keeps_witness :
    (moveMessage [msgA, msgB] "b" (fun _ => true) true).1 =
      ((moveNonTargets [msgA, msgB] "b").map
        fun im => Ev.pubSource im.1 im.2 true) ++ [Ev.pubTarget 1 msgB true] :=
  c2_moveMessage_target_after_keeps [msgA, msgB] "b" (fun _ => true) true 1 msgB true
    (by decide)

/-- C8 counterexample: with three bodies of which the second fails, all
three publishes are attempted, but `importMessages` rethrows the
rejection instead of returning a count pair — no BulkResult counting the
other bodies is returned. -/
theorem c8_import_counterexample :
    importMessages [true, false, true] = (3, none) := by
  decide

/-- Helper: the chunks of `chunkArray` concatenate back to the original
list. -/
theorem chunkArray_flatten {α : Type} (k : Nat) :
    ∀ l : List α, (chunkArray l k).flatten = l
  | [] => by rw [chunkArray]; rfl
  | a :: as => by
    rw [chunkArray, List.flatten_cons]
    rw [chunkArray_flatten k (as.drop (k - 1))]
    simp [List.take_append_drop]
termination_by l => l.length
decreasing_by
  simp only [List.length_drop, List.length_cons]
  omega

/-- Helper: every chunk produced by `chunkArray` with a positive chunk
size has at most that many elements. -/
theorem chunkArray_length_le {α : Type} (k : Nat) (hk : 0 < k) :
    ∀ l : List α, ∀ c ∈ chunkArray l k, c.length ≤ k
  | [] => by rw [chunkArray]; simp
  | a :: as => by
    intro c hc
    rw [chunkArray] at hc
    rcases List.mem_cons.mp hc with rfl | h
    · simp only [List.length_cons, List.length_take]
      omega
    · exact chunkArray_length_le k hk (as.drop (k - 1)) c h
termination_by l => l.length
decreasing_by
  simp only [List.length_drop, List.length_cons]
  omega

/-- Helper: the chunk sizes produced by `chunkArray` depend only on the
input length, as computed by `chunkLens`. -/
theorem chunkArray_map_length {α : Type} (k : Nat) (hk : 0 < k) :
    ∀ l : List α, (chunkArray l k).map List.length = chunkLens l.length k
  | [] => by rw [chunkArray]; simp [chunkLens]
  | a :: as => by
    rw [chunkArray]
    simp only [List.map_cons, List.length_cons]
    rw [chunkArray_map_length k hk (as.drop (k - 1))]
    simp only [List.length_drop]
    rw [chunkLens]
    congr 1
    simp only [List.length_cons, List.length_take]
    omega
termination_by l => l.length
decreasing_by
  simp only [List.length_drop, List.length_cons]
  omega

/-- C5: for every id list the coordinator's chunking produces ordered
chunks of at most 1000 ids whose concatenation is the original list; a
2500-id input yields exactly the chunk sizes 1000, 1000, 500; and a chunk
that fails all its retries contributes its full chunk size to the
aggregated fail count. -/
theorem c5_chunk_coordination (ids : List String) :
    (chunkArray ids 1000).flatten = ids ∧
    (∀ c ∈ chunkArray ids 1000, c.length ≤ 1000) ∧
    (ids.length = 2500 →
      (chunkArray ids 1000).map List.length = [1000, 1000, 500]) ∧
    (∀ (env : Nat → Option (List RawMessage)) (i : Nat) (c : List String)
        (cs : List (List String)), env i = none →
      (runChunks env i (c :: cs)).2 = (c.length : Int) + (runChunks env (i + 1) cs).2) := by
  refine ⟨chunkArray_flatten 1000 ids, chunkArray_length_le 1000 (by omega) ids, ?_, ?_⟩
  · intro h
    rw [chunkArray_map_length 1000 (by omega) ids, h]
    norm_num [chunkLens]
  · intro env i c cs hfail
    simp [runChunks, hfail]

/-- C5 witness: a concrete list of 2500 distinct ids is chunked into
sizes 1000, 1000, 500. -/
theorem c5_chunk_coordination_witness :
    ((List.range 2500).map fun n => toString n).length = 2500 ∧
    (chunkArray ((List.range 2500).map fun n => toString n) 1000).map List.length
      = [1000, 1000, 500] :=
  ⟨by simp, (c5_chunk_coordination _).2.2.1 (by simp)⟩

/-- Helper: the single-batch counts always sum to the requested id count,
because the fail count is computed as that count minus the success
count. -/
theorem bulkSingleResult_sum (drained : List RawMessage) (ids : List String) :
    (bulkSingleResult drained ids).1 + (bulkSingleResult drained ids).2
      = (ids.length : Int) := by
  simp only [bulkSingleResult]
  omega

/-- Helper: the chunked aggregation's counts sum to the total length of
the processed chunks, whether each chunk succeeds or fails all its
retries. -/
theorem runChunks_sum (env : Nat → Option (List RawMessage)) :
    ∀ (cs : List (List String)) (i : Nat),
      (runChunks env i cs).1 + (runChunks env i cs).2
        = ((cs.map List.length).sum : Int) := by
  intro cs
  induction cs with
  | nil => intro i; simp [runChunks]
  | cons c cs ih =>
    intro i
    have h2 := ih (i + 1)
    rcases he : env i with _ | d
    · simp only [runChunks, he, List.map_cons, List.sum_cons]
      push_cast at h2 ⊢
      omega
    · have h1 := bulkSingleResult_sum d c
      simp only [runChunks, he, List.map_cons, List.sum_cons]
      push_cast at h1 h2 ⊢
      omega

/-- C10: whenever `bulkDeleteMessages` or `bulkMoveMessages` returns a
result for a non-empty id list — single-batch path or chunked path,
including chunks that fail all retries — the returned success and fail
counts sum to the length of the input id list. -/
theorem c10_bulk_counts_sum (ids : List String)
    (env : Nat → Option (List RawMessage)) (_hne : ids ≠ []) :
    (∀ r, bulkDeleteMessages ids env = some r → r.1 + r.2 = (ids.length : Int)) ∧
    (∀ r, bulkMoveMessages ids env = some r → r.1 + r.2 = (ids.length : Int)) := by
  have hmain : ∀ r, bulkDeleteMessages ids env = some r → r.1 + r.2 = (ids.length : Int) := by
    intro r hr
    unfold bulkDeleteMessages at hr
    by_cases h0 : ids.length = 0
    · simp only [h0, if_true] at hr
      cases hr
      simp [h0]
    · simp only [h0, if_false] at hr
      by_cases h1 : ids.length > 1000
      · simp only [h1, if_true] at hr
        cases hr
        rw [runChunks_sum env (chunkArray ids 1000) 0]
        have hj := chunkArray_flatten 1000 ids
        have hlen : ((chunkArray ids 1000).map List.length).sum
            = ((chunkArray ids 1000).flatten).length := (List.length_flatten _).symm
        rw [hlen, hj]
      · simp only [h1, if_false] at hr
        rcases he : env 0 with _ | d
        · rw [he] at hr; cases hr
        · rw [he] at hr
          cases hr
          exact bulkSingleResult_sum d ids
  have hmove : bulkMoveMessages ids env = bulkDeleteMessages ids env := rfl
  exact ⟨hmain, by rw [hmove]; exact hmain⟩

/-- C10 witness: a concrete two-id bulk delete and bulk move against a
two-message drain, whose counts (2, 0) sum to the id count. -/
theorem c10_bulk_counts_sum_witness :
    ((2 : Int), (0 : Int)).1 + ((2 : Int), (0 : Int)).2
      = ((["a", "b"] : List String).length : Int) :=
  (c10_bulk_counts_sum ["a", "b"] (fun _ => some [msgA, msgB]) (by decide)).1
    (2, 0) (by decide)

/-- C6 (amended): a chunk operation is attempted at most 3 times in total
(1 initial + up to 2 retries), and the delays slept before the retries
follow the schedule base × 2 ^ (n − 1) for retry n, i.e. 1000 ms then
2000 ms with the default 1000 ms base. -/
theorem c6_retry_schedule (op : Nat → Bool) :
    (retryChunkOperation op).2.1 ≤ 3 ∧
    (retryChunkOperation op).1
      = [1000, 2000].take ((retryChunkOperation op).2.1 - 1) := by
  cases h0 : op 0 <;> cases h1 : op 1 <;> cases h2 : op 2 <;>
    simp [retryChunkOperation, retryLoop, h0, h1, h2]

/-- C7 (amended): when the broker supplies no usable message id (absent or
empty), the id assigned by the `getMessages` normalization is the
positional index alone, while the content-hash derivation of
`generateInternalId` combines the payload hash with the index. -/
theorem c7_id_fallback (m : RawMessage) (i : Nat)
    (h : jsOrElse (propMessageId m) "" = "") :
    normalizeId m i = toString i ∧
    generateInternalId m i =
      "#" ++ hexString (jsStringHash m.payload) ++ ":" ++ toString i := by
  rcases hp : propMessageId m with _ | s
  · constructor
    · simp [normalizeId, messageIdOr, jsOrElse, hp]
    · simp [generateInternalId, jsOrElse, hp]
  · have hs : s = "" := by
      by_contra hne
      simp [jsOrElse, hp, hne] at h
    subst hs
    constructor
    · simp [normalizeId, messageIdOr, jsOrElse, hp]
    · simp [generateInternalId, jsOrElse, hp]

/-- C7 witness: a concrete message without broker id is normalized to the
positional id "0" while its internal id carries the payload hash. -/
theorem c7_id_fallback_witness :
    jsOrElse (propMessageId msgNoIdA) "" = "" ∧
    (normalizeId msgNoIdA 0 = toString 0 ∧
      generateInternalId msgNoIdA 0 =
        "#" ++ hexString (jsStringHash msgNoIdA.payload) ++ ":" ++ toString 0) :=
  ⟨by decide, c7_id_fallback msgNoIdA 0 (by decide)⟩

/-- C8 (amended): every body is processed by the import loop regardless of
other bodies' failures and the success count tallies the successful
publishes, but when any body fails `importMessages` rethrows instead of
returning the counts, so a returned BulkResult always reports zero
failures. -/
theorem c8_import_behaviour (bodies : List Bool) :
    (importMessages bodies).1 = bodies.length ∧
    ((∃ b ∈ bodies, b = false) → (importMessages bodies).2 = none) ∧
    (∀ s f, (importMessages bodies).2 = some (s, f) → f = 0) := by
  rcases bodies with _ | ⟨b, bs⟩
  · refine ⟨rfl, ?_, ?_⟩
    · intro hex
      simp at hex
    · intro s f hsf
      have hred : (importMessages []).2 = some (0, 0) := rfl
      rw [hred] at hsf
      simp only [Option.some.injEq, Prod.mk.injEq] at hsf
      omega
  · by_cases hall : ((b :: bs).all fun x => x) = true
    · have hfil : (b :: bs).filter (fun x => x) = b :: bs :=
        List.filter_eq_self.mpr (by simpa [List.all_eq_true] using hall)
      refine ⟨?_, ?_, ?_⟩
      · simp only [importMessages, List.isEmpty_cons, Bool.false_eq_true, if_false,
          hall, if_true]
      · intro hex
        rcases hex with ⟨x, hx, hfalse⟩
        have hx2 := List.all_eq_true.mp hall x hx
        rw [hfalse] at hx2
        exact absurd hx2 (by simp)
      · intro s f hsf
        simp only [importMessages, List.isEmpty_cons, Bool.false_eq_true, if_false,
          hall, if_true, Option.some.injEq, Prod.mk.injEq] at hsf
        obtain ⟨h1, h2⟩ := hsf
        subst h2
        rw [hfil]
        omega
    · refine ⟨?_, ?_, ?_⟩
      · simp only [importMessages, List.isEmpty_cons, Bool.false_eq_true, if_false]
        rw [if_neg hall]
      · intro _
        simp only [importMessages, List.isEmpty_cons, Bool.false_eq_true, if_false]
        rw [if_neg hall]
      · intro s f hsf
        simp only [importMessages, List.isEmpty_cons, Bool.false_eq_true, if_false] at hsf
        rw [if_neg hall] at hsf
        exact absurd hsf (by simp)

/-- C8 witness: with one succeeding and one failing body, both are
attempted but no count pair is returned. -/
theorem c8_import_behaviour_witness :
    (∃ b ∈ [true, false], b = false) ∧
    (importMessages [true, false]).2 = none :=
  ⟨by decide, (c8_import_behaviour [true, false]).2.1 (by decide)⟩

/-- C4 (amended): with both management calls succeeding, the RabbitMQ
purge returns the queue depth it read before the single purge request,
and the Azure receive loop on a queue of at most one batch's worth of
messages drains it in one receive and returns the count received; in
particular both return 50 for a 50-message queue. -/
theorem c4_purge_amended (depth : Nat) (h : depth ≤ 100) :
    rabbitPurgeQueue depth true true = some depth ∧
    azurePurgeLoop (fun k => if k = 0 then depth else 0) 0 0 2 = some depth := by
  constructor
  · rfl
  · rcases Nat.eq_zero_or_pos depth with h0 | h0
    · subst h0; rfl
    · simp [azurePurgeLoop, Nat.pos_iff_ne_zero.mp h0]

/-- C4 witness: the 50-message scenario, where both providers report 50
removed messages. -/
theorem c4_purge_amended_witness :
    (50 : Nat) ≤ 100 ∧
    (rabbitPurgeQueue 50 true true = some 50 ∧
      azurePurgeLoop (fun k => if k = 0 then 50 else 0) 0 0 2 = some 50) :=
  ⟨by decide, c4_purge_amended 50 (by decide)⟩

/-- C9: id derivation is a pure function of the raw message content (the
payload and the broker-provided message id) and the positional index:
two messages agreeing on those fields receive the same normalized id and
the same internal id at the same position, with no dependence on time or
other state. -/
theorem c9_id_derivation_pure (m1 m2 : RawMessage) (i : Nat)
    (hpay : m1.payload = m2.payload)
    (hid : propMessageId m1 = propMessageId m2) :
    normalizeId m1 i = normalizeId m2 i ∧
    generateInternalId m1 i = generateInternalId m2 i := by
  constructor
  · unfold normalizeId messageIdOr
    rw [hid]
  · unfold generateInternalId
    rw [hpay, hid]

/-- C9 witness: two raw messages with the same payload and message id but
different headers and content type receive identical derived ids. -/
theorem c9_id_derivation_pure_witness :
    msgX1.payload = msgX1Header.payload ∧
    (normalizeId msgX1 0 = normalizeId msgX1Header 0 ∧
      generateInternalId msgX1 0 = generateInternalId msgX1Header 0) :=
  ⟨rfl, c9_id_derivation_pure msgX1 msgX1Header 0 rfl rfl⟩

end OmniBus
